import Mathlib

/-!
Verification development for `pwclip` (`src/lib.rs`), a deterministic
password manager: a passphrase-derived key seeds an HMAC-DRBG (SHA-512)
byte stream, which is mixed with site context and mapped onto a grapheme
charset by rejection sampling.

Bytes are modelled as `Nat` values below 256, machine words as `Nat`
reduced modulo `2 ^ 64` (or `2 ^ 32`).  Fallible code paths (Rust
panics) are modelled with `Option`: `none` stands for a panic.
-/

set_option maxRecDepth 100000

namespace Pwclip

/-! ### SHA-512 (the `sha2::Sha512` dependency of `password_raw`) -/

/-- Word size modulus for SHA-512 arithmetic. -/
def M64 : Nat := 18446744073709551616

/-- Addition modulo `2 ^ 64`. -/
def add64 (a b : Nat) : Nat := (a + b) % M64

/-- Right rotation of a 64-bit word: the low `n` bits wrap to the top. -/
def rotr64 (x n : Nat) : Nat :=
  Nat.lor (Nat.shiftRight x n) (Nat.mod (Nat.shiftLeft x (64 - n)) M64)

/-- Bitwise complement of a 64-bit word. -/
def not64 (x : Nat) : Nat := Nat.xor x (M64 - 1)

/-- SHA-512 choice function. -/
def ch64 (e f g : Nat) : Nat := Nat.xor (Nat.land e f) (Nat.land (not64 e) g)

/-- SHA-512 majority function. -/
def maj64 (a b c : Nat) : Nat :=
  Nat.xor (Nat.xor (Nat.land a b) (Nat.land a c)) (Nat.land b c)

/-- SHA-512 big sigma 0. -/
def bigSigma0 (x : Nat) : Nat := Nat.xor (Nat.xor (rotr64 x 28) (rotr64 x 34)) (rotr64 x 39)

/-- SHA-512 big sigma 1. -/
def bigSigma1 (x : Nat) : Nat := Nat.xor (Nat.xor (rotr64 x 14) (rotr64 x 18)) (rotr64 x 41)

/-- SHA-512 small sigma 0. -/
def smallSigma0 (x : Nat) : Nat :=
  Nat.xor (Nat.xor (rotr64 x 1) (rotr64 x 8)) (Nat.shiftRight x 7)

/-- SHA-512 small sigma 1. -/
def smallSigma1 (x : Nat) : Nat :=
  Nat.xor (Nat.xor (rotr64 x 19) (rotr64 x 61)) (Nat.shiftRight x 6)

/-- The eighty SHA-512 round constants (fractional parts of cube roots of
the first eighty primes), written in decimal. -/
def sha512K : List Nat :=
  [4794697086780616226, 8158064640168781261, 13096744586834688815, 16840607885511220156,
   4131703408338449720, 6480981068601479193, 10538285296894168987, 12329834152419229976,
   15566598209576043074, 1334009975649890238, 2608012711638119052, 6128411473006802146,
   8268148722764581231, 9286055187155687089, 11230858885718282805, 13951009754708518548,
   16472876342353939154, 17275323862435702243, 1135362057144423861, 2597628984639134821,
   3308224258029322869, 5365058923640841347, 6679025012923562964, 8573033837759648693,
   10970295158949994411, 12119686244451234320, 12683024718118986047, 13788192230050041572,
   14330467153632333762, 15395433587784984357, 489312712824947311, 1452737877330783856,
   2861767655752347644, 3322285676063803686, 5560940570517711597, 5996557281743188959,
   7280758554555802590, 8532644243296465576, 9350256976987008742, 10552545826968843579,
   11727347734174303076, 12113106623233404929, 14000437183269869457, 14369950271660146224,
   15101387698204529176, 15463397548674623760, 17586052441742319658, 1182934255886127544,
   1847814050463011016, 2177327727835720531, 2830643537854262169, 3796741975233480872,
   4115178125766777443, 5681478168544905931, 6601373596472566643, 7507060721942968483,
   8399075790359081724, 8693463985226723168, 9568029438360202098, 10144078919501101548,
   10430055236837252648, 11840083180663258601, 13761210420658862357, 14299343276471374635,
   14566680578165727644, 15097957966210449927, 16922976911328602910, 17689382322260857208,
   500013540394364858, 748580250866718886, 1242879168328830382, 1977374033974150939,
   2944078676154940804, 3659926193048069267, 4368137639120453308, 4836135668995329356,
   5532061633213252278, 6448918945643986474, 6902733635092675308, 7801388544844847127]

/-- The SHA-512 initial hash value (fractional parts of square roots of
the first eight primes), written in decimal. -/
def sha512H0 : List Nat :=
  [7640891576956012808, 13503953896175478587, 4354685564936845355, 11912009170470909681,
   5840696475078001361, 11170449401992604703, 2270897969802886507, 6620516959819538809]

/-- Big-endian byte decomposition of a number into `n` bytes. -/
def toBytesBE : Nat → Nat → List Nat
  | 0, _ => []
  | n + 1, x => toBytesBE n (x / 256) ++ [x % 256]

/-- SHA-512 padding: append `0x80`, zero bytes up to 112 mod 128, then the
message length in bits as a 16-byte big-endian integer. -/
def sha512Pad (msg : List Nat) : List Nat :=
  let padLen := (128 - (msg.length + 17) % 128) % 128
  msg ++ [128] ++ List.replicate padLen 0 ++ toBytesBE 16 (8 * msg.length)

/-- Group a byte list into big-endian 64-bit words, eight bytes per word. -/
def bytesToWords : List Nat → List Nat
  | b0 :: b1 :: b2 :: b3 :: b4 :: b5 :: b6 :: b7 :: rest =>
    (((((((b0 * 256 + b1) * 256 + b2) * 256 + b3) * 256 + b4) * 256 + b5) * 256
      + b6) * 256 + b7) :: bytesToWords rest
  | _ => []

/-- Message-schedule extension: from the sliding window
`w[t-16] .. w[t-1]` (arguments `x0 .. x15`) produce words `w[t] .. w[79]`,
where `w[t] = sigma1 w[t-2] + w[t-7] + sigma0 w[t-15] + w[t-16]`.
The `fuel` argument counts the remaining words (initially 64). -/
def scheduleRest (fuel : Nat) (x0 x1 x2 x3 x4 x5 x6 x7 x8 x9 x10 x11 x12 x13 x14 x15 : Nat) :
    List Nat :=
  match fuel with
  | 0 => []
  | n + 1 =>
    let wt := add64 (add64 (smallSigma1 x14) x9) (add64 (smallSigma0 x1) x0)
    wt :: scheduleRest n x1 x2 x3 x4 x5 x6 x7 x8 x9 x10 x11 x12 x13 x14 x15 wt
termination_by structural fuel

/-- The full eighty-word message schedule of one 128-byte block. -/
def sha512Schedule (block : List Nat) : List Nat :=
  match bytesToWords block with
  | [w0, w1, w2, w3, w4, w5, w6, w7, w8, w9, w10, w11, w12, w13, w14, w15] =>
    [w0, w1, w2, w3, w4, w5, w6, w7, w8, w9, w10, w11, w12, w13, w14, w15] ++
      scheduleRest 64 w0 w1 w2 w3 w4 w5 w6 w7 w8 w9 w10 w11 w12 w13 w14 w15
  | _ => []

/-- The SHA-512 round function, iterated over the paired lists of round
constants and schedule words; the working state is the eight words
`a .. h` of FIPS 180-4 section 6.4.2. -/
def sha512Rounds : List Nat → List Nat → Nat → Nat → Nat → Nat → Nat → Nat → Nat → Nat →
    List Nat
  | k :: ks, w :: ws, a, b, c, d, e, f, g, h =>
    let t1 := add64 h (add64 (bigSigma1 e) (add64 (ch64 e f g) (add64 k w)))
    let t2 := add64 (bigSigma0 a) (maj64 a b c)
    sha512Rounds ks ws (add64 t1 t2) a b c (add64 d t1) e f g
  | _, _, a, b, c, d, e, f, g, h => [a, b, c, d, e, f, g, h]

/-- SHA-512 compression of one 128-byte block into the chaining state. -/
def sha512Compress (h : List Nat) (block : List Nat) : List Nat :=
  match h with
  | [a0, b0, c0, d0, e0, f0, g0, h0] =>
    match sha512Rounds sha512K (sha512Schedule block) a0 b0 c0 d0 e0 f0 g0 h0 with
    | [a, b, c, d, e, f, g, hh] =>
      [add64 a0 a, add64 b0 b, add64 c0 c, add64 d0 d,
       add64 e0 e, add64 f0 f, add64 g0 g, add64 h0 hh]
    | _ => []
  | _ => []

/-- Fold the compression function over the 128-byte blocks of the padded
message; `fuel` counts the remaining blocks. -/
def sha512Fold (fuel : Nat) (h : List Nat) (l : List Nat) : List Nat :=
  match fuel with
  | 0 => h
  | n + 1 => sha512Fold n (sha512Compress h (l.take 128)) (l.drop 128)

/-- The SHA-512 digest of a byte sequence, as a list of 64 bytes. -/
def sha512 (msg : List Nat) : List Nat :=
  let padded := sha512Pad msg
  ((sha512Fold (padded.length / 128) sha512H0 padded).map (toBytesBE 8)).flatten

/-! ### HMAC-SHA-512 (the `hmac` dependency of `hmac_drbg`) -/

/-- HMAC-SHA-512: the key is zero-padded (or hashed, then zero-padded) to
the 128-byte block size; digest of `opad ++ digest (ipad ++ msg)`. -/
def hmacSha512 (key msg : List Nat) : List Nat :=
  let k0 :=
    if 128 < key.length then sha512 key ++ List.replicate 64 0
    else key ++ List.replicate (128 - key.length) 0
  sha512 ((k0.map (fun b => Nat.xor b 92)) ++ sha512 ((k0.map (fun b => Nat.xor b 54)) ++ msg))

/-! ### HMAC-DRBG over SHA-512 (the `hmac_drbg::HmacDRBG<Sha512>` dependency)

The generator state is the pair `(K, V)` of 64-byte strings of
NIST SP 800-90A; `update`, instantiation, `reseed` and `generate` follow
the `hmac_drbg` crate used by `src/lib.rs`. -/

/-- HMAC-DRBG internal state: key `k` and value `v`, both 64 bytes. -/
structure DrbgState where
  k : List Nat
  v : List Nat
  deriving DecidableEq

/-- The `HmacDRBG::update` step: `K = HMAC(K, V || 0x00 || seeds)`,
`V = HMAC(K, V)`, and when seed material is present a second round with
domain byte `0x01`. -/
def drbgUpdate (st : DrbgState) : Option (List (List Nat)) → DrbgState
  | none =>
    let k1 := hmacSha512 st.k (st.v ++ [0])
    let v1 := hmacSha512 k1 st.v
    ⟨k1, v1⟩
  | some seeds =>
    let k1 := hmacSha512 st.k (st.v ++ [0] ++ seeds.flatten)
    let v1 := hmacSha512 k1 st.v
    let k2 := hmacSha512 k1 (v1 ++ [1] ++ seeds.flatten)
    let v2 := hmacSha512 k2 v1
    ⟨k2, v2⟩

/-- `HmacDRBG::<Sha512>::new(entropy, nonce, pers)`: state starts as
`K = 0x00 * 64`, `V = 0x01 * 64`, then one `update` on the seed material. -/
def drbgNew (entropy nonce pers : List Nat) : DrbgState :=
  drbgUpdate ⟨List.replicate 64 0, List.replicate 64 1⟩ (some [entropy, nonce, pers])

/-- `HmacDRBG::reseed(entropy, None)`: an `update` on the entropy alone. -/
def drbgReseed (st : DrbgState) (entropy : List Nat) : DrbgState :=
  drbgUpdate st (some [entropy])

/-- `HmacDRBG::generate::<U64>(None)`: `V = HMAC(K, V)` fills the 64-byte
request in a single iteration (SHA-512 outputs 64 bytes, see
`hmacSha512_length`), followed by an `update` without seed material.
Returns the output block and the successor state. -/
def drbgGenerate64 (st : DrbgState) : List Nat × DrbgState :=
  let v1 := hmacSha512 st.k st.v
  (v1.take 64, drbgUpdate ⟨st.k, v1⟩ none)

/-! ### UTF-8 encoding (Rust `str::as_bytes` / `str::len`) -/

/-- The UTF-8 encoding of one Unicode scalar value. -/
def utf8CharBytes (c : Char) : List Nat :=
  let n := c.toNat
  if n < 128 then [n]
  else if n < 2048 then [192 + n / 64, 128 + n % 64]
  else if n < 65536 then [224 + n / 4096, 128 + (n / 64) % 64, 128 + n % 64]
  else [240 + n / 262144, 128 + (n / 4096) % 64, 128 + (n / 64) % 64, 128 + n % 64]

/-- The UTF-8 bytes of a string (Rust `str::as_bytes`). -/
def utf8Bytes (s : String) : List Nat := (s.data.map utf8CharBytes).flatten

/-- The UTF-8 byte length of a string (Rust `String::len`). -/
def utf8Len (s : String) : Nat := (utf8Bytes s).length

/-! ### The `pwclip` password generator (`src/lib.rs`) -/

/-- `CHARSET_ALPHANUMERIC` from `src/lib.rs`. -/
def CHARSET_ALPHANUMERIC : String :=
  "ABCDEFGHIJKLMNOPQRSTUVWXYZabcdefghijklmnopqrstuvwxyz0123456789"

/-- `DEFAULT_LENGTH` from `src/lib.rs`. -/
def DEFAULT_LENGTH : Nat := 24

/-- Grapheme decomposition of ASCII text: for printable ASCII with no
CR LF pairs, UAX 29 extended grapheme clusters (the
`unicode_segmentation` crate's `graphemes(true)`) are exactly the
individual characters. -/
def asciiGraphemes (s : String) : List String := s.data.map (fun c => String.mk [c])

/-- The grapheme decomposition of the default charset: its 62 ASCII
characters, one cluster each. -/
def defaultCharset : List String := asciiGraphemes CHARSET_ALPHANUMERIC

/-- The `PWM` site profile of `src/lib.rs`.  The `charset` field holds the
grapheme-cluster decomposition `self.charset.graphemes(true).collect()`
of the configured charset string (Unicode segmentation itself lives in
the external `unicode_segmentation` crate); `prefixStr` models the
`prefix` field. -/
structure PWM where
  url : String
  username : String
  extra : Option String
  prefixStr : String
  charset : List String
  length : Nat

/-- Seeding and context mixing of `PWM::password_raw`: the DRBG is
instantiated from the key with empty nonce and personalization, then
reseeded with `url`, then `username`, then `extra` when present, in that
fixed order. -/
def streamState (pwm : PWM) (key : List Nat) : DrbgState :=
  let st0 := drbgNew key [] []
  let st1 := drbgReseed st0 (utf8Bytes pwm.url)
  let st2 := drbgReseed st1 (utf8Bytes pwm.username)
  match pwm.extra with
  | some e => drbgReseed st2 (utf8Bytes e)
  | none => st2

/-- The single 64-byte block `drbg.generate::<U64>(None)` drawn by
`PWM::password_raw`. -/
def drbgBytes (pwm : PWM) (key : List Nat) : List Nat :=
  (drbgGenerate64 (streamState pwm key)).1

/-- The rejection-sampling mapper of `PWM::password_raw` (lines 73 and 74
of `src/lib.rs`): keep bytes `r < 256 - 256 % charset_len`, map each
survivor to the cluster at index `r % charset_len`. -/
def mapStream (cs : List String) (bytes : List Nat) : List String :=
  (bytes.filter (fun r => r < 256 - 256 % cs.length)).map
    (fun r => cs.getD (r % cs.length) "")

/-- `PWM::password_raw` of `src/lib.rs`.  The result is `none` when the
Rust code panics: for `length < prefix.len()` the expression
`self.length - self.prefix.len()` underflows (a panic in debug builds;
release builds would wrap), and for an empty charset with at least one
cluster still to draw the expression `256 % charset_len` divides by zero.
The 64-byte block is drawn before either panic can fire, but it is
unused on those paths, so the guards are checked first here. -/
def password_raw (pwm : PWM) (key : List Nat) : Option String :=
  let bytes := drbgBytes pwm key
  let prefixLen := utf8Len pwm.prefixStr
  if pwm.length < prefixLen then none
  else
    let takeN := pwm.length - prefixLen
    if 0 < takeN ∧ pwm.charset.length = 0 then none
    else some (pwm.prefixStr ++ String.join (List.take takeN (mapStream pwm.charset bytes)))

/-- The number of bytes of the single 64-byte block that survive
rejection sampling (the `filter` on line 73 of `src/lib.rs`). -/
def acceptedCount (pwm : PWM) (key : List Nat) : Nat :=
  ((drbgBytes pwm key).filter (fun r => r < 256 - 256 % pwm.charset.length)).length

/-- The cluster sequence appended after the prefix by `password_raw`:
the accepted-and-mapped clusters of the single block, truncated to
`length - prefix.len()` (the prefix length in UTF-8 bytes). -/
def suffixClusters (pwm : PWM) (key : List Nat) : List String :=
  List.take (pwm.length - utf8Len pwm.prefixStr) (mapStream pwm.charset (drbgBytes pwm key))

/-! ### SHA-256 (dependency of the scrypt key derivation in `Key::new`)

`Key::new` delegates to the external `rust_scrypt` crate with parameters
`N = 2 << 15`, `r = 8`, `p = 1` and salt `b"pwclip"`.  The scrypt chain
below (SHA-256, HMAC, one-iteration PBKDF2, Salsa20/8, BlockMix, ROMix)
follows RFC 7914, specialised to `r = 8`, `p = 1`. -/

/-- Word size modulus for SHA-256 and Salsa20 arithmetic. -/
def M32 : Nat := 4294967296

/-- Addition modulo `2 ^ 32`. -/
def add32 (a b : Nat) : Nat := (a + b) % M32

/-- Right rotation of a 32-bit word. -/
def rotr32 (x n : Nat) : Nat :=
  Nat.lor (Nat.shiftRight x n) (Nat.mod (Nat.shiftLeft x (32 - n)) M32)

/-- Left rotation of a 32-bit word. -/
def rotl32 (x n : Nat) : Nat :=
  Nat.lor (Nat.mod (Nat.shiftLeft x n) M32) (Nat.shiftRight x (32 - n))

/-- Bitwise complement of a 32-bit word. -/
def not32 (x : Nat) : Nat := Nat.xor x (M32 - 1)

/-- SHA-256 choice function. -/
def ch32 (e f g : Nat) : Nat := Nat.xor (Nat.land e f) (Nat.land (not32 e) g)

/-- SHA-256 majority function. -/
def maj32 (a b c : Nat) : Nat :=
  Nat.xor (Nat.xor (Nat.land a b) (Nat.land a c)) (Nat.land b c)

/-- SHA-256 big sigma 0. -/
def bSig0 (x : Nat) : Nat := Nat.xor (Nat.xor (rotr32 x 2) (rotr32 x 13)) (rotr32 x 22)

/-- SHA-256 big sigma 1. -/
def bSig1 (x : Nat) : Nat := Nat.xor (Nat.xor (rotr32 x 6) (rotr32 x 11)) (rotr32 x 25)

/-- SHA-256 small sigma 0. -/
def sSig0 (x : Nat) : Nat := Nat.xor (Nat.xor (rotr32 x 7) (rotr32 x 18)) (Nat.shiftRight x 3)

/-- SHA-256 small sigma 1. -/
def sSig1 (x : Nat) : Nat := Nat.xor (Nat.xor (rotr32 x 17) (rotr32 x 19)) (Nat.shiftRight x 10)

/-- The sixty-four SHA-256 round constants, in decimal. -/
def sha256K : List Nat :=
  [1116352408, 1899447441, 3049323471, 3921009573, 961987163, 1508970993, 2453635748, 2870763221,
   3624381080, 310598401, 607225278, 1426881987, 1925078388, 2162078206, 2614888103, 3248222580,
   3835390401, 4022224774, 264347078, 604807628, 770255983, 1249150122, 1555081692, 1996064986,
   2554220882, 2821834349, 2952996808, 3210313671, 3336571891, 3584528711, 113926993, 338241895,
   666307205, 773529912, 1294757372, 1396182291, 1695183700, 1986661051, 2177026350, 2456956037,
   2730485921, 2820302411, 3259730800, 3345764771, 3516065817, 3600352804, 4094571909, 275423344,
   430227734, 506948616, 659060556, 883997877, 958139571, 1322822218, 1537002063, 1747873779,
   1955562222, 2024104815, 2227730452, 2361852424, 2428436474, 2756734187, 3204031479, 3329325298]

/-- The SHA-256 initial hash value, in decimal. -/
def sha256H0 : List Nat :=
  [1779033703, 3144134277, 1013904242, 2773480762, 1359893119, 2600822924, 528734635, 1541459225]

/-- SHA-256 padding: append `0x80`, zero bytes up to 56 mod 64, then the
message length in bits as an 8-byte big-endian integer. -/
def sha256Pad (msg : List Nat) : List Nat :=
  let padLen := (64 - (msg.length + 9) % 64) % 64
  msg ++ [128] ++ List.replicate padLen 0 ++ toBytesBE 8 (8 * msg.length)

/-- Group a byte list into big-endian 32-bit words, four bytes per word. -/
def bytesToWords4 : List Nat → List Nat
  | b0 :: b1 :: b2 :: b3 :: rest =>
    (((b0 * 256 + b1) * 256 + b2) * 256 + b3) :: bytesToWords4 rest
  | _ => []

/-- SHA-256 message-schedule extension, sliding-window form (48 words). -/
def schedRest256 (fuel : Nat)
    (x0 x1 x2 x3 x4 x5 x6 x7 x8 x9 x10 x11 x12 x13 x14 x15 : Nat) : List Nat :=
  match fuel with
  | 0 => []
  | n + 1 =>
    let wt := add32 (add32 (sSig1 x14) x9) (add32 (sSig0 x1) x0)
    wt :: schedRest256 n x1 x2 x3 x4 x5 x6 x7 x8 x9 x10 x11 x12 x13 x14 x15 wt
termination_by structural fuel

/-- The full sixty-four-word message schedule of one 64-byte block. -/
def sha256Schedule (block : List Nat) : List Nat :=
  match bytesToWords4 block with
  | [w0, w1, w2, w3, w4, w5, w6, w7, w8, w9, w10, w11, w12, w13, w14, w15] =>
    [w0, w1, w2, w3, w4, w5, w6, w7, w8, w9, w10, w11, w12, w13, w14, w15] ++
      schedRest256 48 w0 w1 w2 w3 w4 w5 w6 w7 w8 w9 w10 w11 w12 w13 w14 w15
  | _ => []

/-- The SHA-256 round function over the paired constant/schedule lists. -/
def sha256Rounds : List Nat → List Nat → Nat → Nat → Nat → Nat → Nat → Nat → Nat → Nat →
    List Nat
  | k :: ks, w :: ws, a, b, c, d, e, f, g, h =>
    let t1 := add32 h (add32 (bSig1 e) (add32 (ch32 e f g) (add32 k w)))
    let t2 := add32 (bSig0 a) (maj32 a b c)
    sha256Rounds ks ws (add32 t1 t2) a b c (add32 d t1) e f g
  | _, _, a, b, c, d, e, f, g, h => [a, b, c, d, e, f, g, h]

/-- SHA-256 compression of one 64-byte block into the chaining state. -/
def sha256Compress (h : List Nat) (block : List Nat) : List Nat :=
  match h with
  | [a0, b0, c0, d0, e0, f0, g0, h0] =>
    match sha256Rounds sha256K (sha256Schedule block) a0 b0 c0 d0 e0 f0 g0 h0 with
    | [a, b, c, d, e, f, g, hh] =>
      [add32 a0 a, add32 b0 b, add32 c0 c, add32 d0 d,
       add32 e0 e, add32 f0 f, add32 g0 g, add32 h0 hh]
    | _ => []
  | _ => []

/-- Fold SHA-256 compression over the 64-byte blocks of the padded
message; `fuel` counts the remaining blocks. -/
def sha256Fold (fuel : Nat) (h : List Nat) (l : List Nat) : List Nat :=
  match fuel with
  | 0 => h
  | n + 1 => sha256Fold n (sha256Compress h (l.take 64)) (l.drop 64)

/-- The SHA-256 digest of a byte sequence, as a list of 32 bytes. -/
def sha256 (msg : List Nat) : List Nat :=
  let padded := sha256Pad msg
  ((sha256Fold (padded.length / 64) sha256H0 padded).map (toBytesBE 4)).flatten

/-! ### HMAC-SHA-256 and one-iteration PBKDF2 (scrypt's outer function) -/

/-- The padded HMAC-SHA-256 key: hashed when longer than the 64-byte
block, zero-padded to 64 bytes.  A key of `0x00` bytes pads to the same
block as a shorter key, which is the source of scrypt's trailing-zero
collisions. -/
def hmacPad256 (key : List Nat) : List Nat :=
  if 64 < key.length then sha256 key ++ List.replicate 32 0
  else key ++ List.replicate (64 - key.length) 0

/-- The HMAC-SHA-256 core on an already padded 64-byte key. -/
def hmacCore256 (k0 msg : List Nat) : List Nat :=
  sha256 ((k0.map (fun b => Nat.xor b 92)) ++ sha256 ((k0.map (fun b => Nat.xor b 54)) ++ msg))

/-- HMAC-SHA-256. -/
def hmacSha256 (key msg : List Nat) : List Nat := hmacCore256 (hmacPad256 key) msg

/-- PBKDF2-HMAC-SHA-256 with iteration count 1, as used on both ends of
scrypt: block `i` is `HMAC(password, salt || INT_BE32(i))`. -/
def pbkdf2Sha256One (password salt : List Nat) (dkLen : Nat) : List Nat :=
  (((List.range ((dkLen + 31) / 32)).map
    (fun i => hmacSha256 password (salt ++ toBytesBE 4 (i + 1)))).flatten).take dkLen

/-! ### Salsa20/8 core and scrypt (RFC 7914, `r = 8`, `p = 1`) -/

/-- The Salsa20 quarter round. -/
def qr (a b c d : Nat) : Nat × Nat × Nat × Nat :=
  let b2 := Nat.xor b (rotl32 (add32 a d) 7)
  let c2 := Nat.xor c (rotl32 (add32 b2 a) 9)
  let d2 := Nat.xor d (rotl32 (add32 c2 b2) 13)
  let a2 := Nat.xor a (rotl32 (add32 d2 c2) 18)
  (a2, b2, c2, d2)

/-- One Salsa20 double round (column round then row round) on the
sixteen-word state. -/
def salsaDoubleRound : List Nat → List Nat
  | [x0, x1, x2, x3, x4, x5, x6, x7, x8, x9, x10, x11, x12, x13, x14, x15] =>
    match qr x0 x4 x8 x12, qr x5 x9 x13 x1, qr x10 x14 x2 x6, qr x15 x3 x7 x11 with
    | (y0, y4, y8, y12), (y5, y9, y13, y1), (y10, y14, y2, y6), (y15, y3, y7, y11) =>
      match qr y0 y1 y2 y3, qr y5 y6 y7 y4, qr y10 y11 y8 y9, qr y15 y12 y13 y14 with
      | (z0, z1, z2, z3), (z5, z6, z7, z4), (z10, z11, z8, z9), (z15, z12, z13, z14) =>
        [z0, z1, z2, z3, z4, z5, z6, z7, z8, z9, z10, z11, z12, z13, z14, z15]
  | l => l

/-- Group a byte list into little-endian 32-bit words. -/
def leWords4 : List Nat → List Nat
  | b0 :: b1 :: b2 :: b3 :: rest =>
    (b0 + 256 * (b1 + 256 * (b2 + 256 * b3))) :: leWords4 rest
  | _ => []

/-- Little-endian byte decomposition of a 32-bit word. -/
def toBytesLE4 (w : Nat) : List Nat :=
  [w % 256, (w / 256) % 256, (w / 65536) % 256, (w / 16777216) % 256]

/-- The Salsa20/8 core on a 64-byte block: four double rounds, then the
feed-forward addition. -/
def salsa208Block (bytes : List Nat) : List Nat :=
  let x := leWords4 bytes
  let y := Nat.iterate salsaDoubleRound 4 x
  ((List.zipWith add32 x y).map toBytesLE4).flatten

/-- Pointwise xor of two byte lists. -/
def xorBytes (a b : List Nat) : List Nat := List.zipWith Nat.xor a b

/-- Split a byte list into `fuel` consecutive chunks of `size` bytes. -/
def chunksOf (size fuel : Nat) (l : List Nat) : List (List Nat) :=
  match fuel with
  | 0 => []
  | n + 1 => l.take size :: chunksOf size n (l.drop size)

/-- The BlockMix chain: `Y[i] = Salsa(X xor B[i])` with `X` the previous
output. -/
def blockMixGo : List (List Nat) → List Nat → List (List Nat)
  | [], _ => []
  | b :: bs, x =>
    let y := salsa208Block (xorBytes x b)
    y :: blockMixGo bs y

/-- The even-indexed elements of a list. -/
def evens {α : Type} : List α → List α
  | [] => []
  | [a] => [a]
  | a :: _ :: rest => a :: evens rest

/-- The odd-indexed elements of a list. -/
def odds {α : Type} : List α → List α
  | [] => []
  | [_] => []
  | _ :: b :: rest => b :: odds rest

/-- scrypt BlockMix for `r = 8` on a 1024-byte block: chain Salsa20/8
over the sixteen 64-byte subblocks (seeded with the last one), then
interleave even outputs before odd outputs. -/
def blockMix (bytes : List Nat) : List Nat :=
  let bs := chunksOf 64 16 bytes
  let ys := blockMixGo bs (bs.getD 15 [])
  (evens ys ++ odds ys).flatten

/-- A little-endian 64-bit integer from eight bytes. -/
def leWord8 (bs : List Nat) : Nat := bs.foldr (fun b acc => b + 256 * acc) 0

/-- scrypt Integerify for `r = 8`: the little-endian integer in the last
64-byte subblock (offset 960). -/
def integerify (x : List Nat) : Nat := leWord8 ((x.drop 960).take 8)

/-- First ROMix loop: record `V[i] = X_i` and iterate `X = BlockMix X`. -/
def romixFill : Nat → List Nat → List (List Nat) × List Nat
  | 0, x => ([], x)
  | n + 1, x =>
    let p := romixFill n (blockMix x)
    (x :: p.1, p.2)

/-- Second ROMix loop: `X = BlockMix (X xor V[Integerify X mod n])`. -/
def romixMix (v : List (List Nat)) (n : Nat) : Nat → List Nat → List Nat
  | 0, x => x
  | fuel + 1, x =>
    let j := integerify x % n
    romixMix v n fuel (blockMix (xorBytes x (v.getD j [])))

/-- scrypt ROMix with cost parameter `n`. -/
def romix (n : Nat) (b : List Nat) : List Nat :=
  let p := romixFill n b
  romixMix p.1 n n p.2

/-- scrypt for `r = 8`, `p = 1`: PBKDF2 (one iteration) stretches the
password to the 1024-byte block, ROMix scrambles it, and a final PBKDF2
with that block as salt produces the key.  The password enters only as
the HMAC-SHA-256 key of the two PBKDF2 calls. -/
def scrypt (password salt : List Nat) (n dkLen : Nat) : List Nat :=
  let b := pbkdf2Sha256One password salt 1024
  pbkdf2Sha256One password (romix n b) dkLen

/-- `Key::new` of `src/lib.rs`: scrypt with parameters
`ScryptParams::new(2 << 15, 8, 1)` (cost `N = 65536`), salt `b"pwclip"`,
and a 32-byte output. -/
def Key.new (passphrase : List Nat) : List Nat :=
  scrypt passphrase (utf8Bytes "pwclip") 65536 32

/-! ### Sanity vectors for the hash embeddings -/

/-- Sanity vector: the SHA-512 digest of the empty message (FIPS 180-4). -/
theorem sha512_empty :
    sha512 [] =
      [207, 131, 225, 53, 126, 239, 184, 189, 241, 84, 40, 80, 214, 109, 128, 7,
       214, 32, 228, 5, 11, 87, 21, 220, 131, 244, 169, 33, 211, 108, 233, 206,
       71, 208, 209, 60, 93, 133, 242, 176, 255, 131, 24, 210, 135, 126, 236, 47,
       99, 185, 49, 189, 71, 65, 122, 129, 165, 56, 50, 122, 249, 39, 218, 62] := by
  decide

/-- Sanity vector: the SHA-512 digest of `"abc"` (FIPS 180-4). -/
theorem sha512_abc :
    sha512 [97, 98, 99] =
      [221, 175, 53, 161, 147, 97, 122, 186, 204, 65, 115, 73, 174, 32, 65, 49,
       18, 230, 250, 78, 137, 169, 126, 162, 10, 158, 238, 230, 75, 85, 211, 154,
       33, 146, 153, 42, 39, 79, 193, 168, 54, 186, 60, 35, 163, 254, 235, 189,
       69, 77, 68, 35, 100, 60, 232, 14, 42, 154, 201, 79, 165, 76, 164, 159] := by
  decide

/-- Sanity vector: the SHA-256 digest of `"abc"` (FIPS 180-4). -/
theorem sha256_abc :
    sha256 [97, 98, 99] =
      [186, 120, 22, 191, 143, 1, 207, 234, 65, 65, 64, 222, 93, 174, 34, 35,
       176, 3, 97, 163, 150, 23, 122, 156, 180, 16, 255, 97, 242, 0, 21, 173] := by
  decide

/-! ### Output-length lemmas -/

/-- Byte decomposition produces the requested number of bytes. -/
theorem toBytesBE_length (n x : Nat) : (toBytesBE n x).length = n := by
  induction n generalizing x with
  | zero => rfl
  | succ n ih => simp [toBytesBE, ih]

/-- The round iteration always returns the eight-word working state. -/
theorem sha512Rounds_length (ks : List Nat) : ∀ (ws : List Nat) (a b c d e f g h : Nat),
    (sha512Rounds ks ws a b c d e f g h).length = 8 := by
  induction ks with
  | nil => intro ws a b c d e f g h; cases ws <;> rfl
  | cons k ks ih =>
    intro ws a b c d e f g h
    cases ws with
    | nil => rfl
    | cons w ws => simpa [sha512Rounds] using ih ws _ _ _ _ _ _ _ _

/-- A list of length eight is literally an eight-element list. -/
theorem length_eq_eight {α : Type} (l : List α) (h : l.length = 8) :
    ∃ a b c d e f g hh, l = [a, b, c, d, e, f, g, hh] := by
  rcases l with _ | ⟨a, l⟩; · simp at h
  rcases l with _ | ⟨b, l⟩; · simp at h
  rcases l with _ | ⟨c, l⟩; · simp at h
  rcases l with _ | ⟨d, l⟩; · simp at h
  rcases l with _ | ⟨e, l⟩; · simp at h
  rcases l with _ | ⟨f, l⟩; · simp at h
  rcases l with _ | ⟨g, l⟩; · simp at h
  rcases l with _ | ⟨hh, l⟩; · simp at h
  rcases l with _ | ⟨x, l⟩
  · exact ⟨a, b, c, d, e, f, g, hh, rfl⟩
  · simp at h

/-- Compression preserves the eight-word chaining state. -/
theorem sha512Compress_length (h block : List Nat) (hl : h.length = 8) :
    (sha512Compress h block).length = 8 := by
  obtain ⟨a0, b0, c0, d0, e0, f0, g0, h0, rfl⟩ := length_eq_eight h hl
  have hr := sha512Rounds_length sha512K (sha512Schedule block) a0 b0 c0 d0 e0 f0 g0 h0
  obtain ⟨a, b, c, d, e, f, g, hh, hr'⟩ :=
    length_eq_eight (sha512Rounds sha512K (sha512Schedule block) a0 b0 c0 d0 e0 f0 g0 h0) hr
  simp [sha512Compress, hr']

/-- Folding compression over any number of blocks preserves the
eight-word state. -/
theorem sha512Fold_length (fuel : Nat) : ∀ (h l : List Nat), h.length = 8 →
    (sha512Fold fuel h l).length = 8 := by
  induction fuel with
  | zero => intro h l hh; simpa [sha512Fold] using hh
  | succ n ih => intro h l hh; exact ih _ _ (sha512Compress_length _ _ hh)

/-- SHA-512 digests are 64 bytes long. -/
theorem sha512_length (msg : List Nat) : (sha512 msg).length = 64 := by
  unfold sha512
  have h8 := sha512Fold_length ((sha512Pad msg).length / 128) sha512H0 (sha512Pad msg) rfl
  obtain ⟨a, b, c, d, e, f, g, hh, hr⟩ :=
    length_eq_eight (sha512Fold ((sha512Pad msg).length / 128) sha512H0 (sha512Pad msg)) h8
  simp [hr, toBytesBE_length]

/-- HMAC-SHA-512 outputs are 64 bytes long, which is why the
`hmac_drbg` generation loop fills a 64-byte request in one step. -/
theorem hmacSha512_length (key msg : List Nat) : (hmacSha512 key msg).length = 64 := by
  unfold hmacSha512
  exact sha512_length _

/-- The single block drawn by `password_raw` has exactly 64 bytes. -/
theorem drbgBytes_length (pwm : PWM) (key : List Nat) : (drbgBytes pwm key).length = 64 := by
  unfold drbgBytes drbgGenerate64
  simp [List.length_take, hmacSha512_length]

/-! ### Claim theorems -/

/-- C1.  Password generation is a pure function of the key and the six
profile fields `(url, username, extra, prefix, charset, length)`: two
profiles agreeing on all six fields give byte-for-byte identical output
for every key, so repeated calls with the same inputs coincide and the
result depends on nothing else. -/
theorem generate_password_deterministic (p q : PWM) (key : List Nat)
    (hu : p.url = q.url) (hn : p.username = q.username) (he : p.extra = q.extra)
    (hp : p.prefixStr = q.prefixStr) (hc : p.charset = q.charset) (hl : p.length = q.length) :
    password_raw p key = password_raw q key := by
  cases p; cases q
  cases hu; cases hn; cases he; cases hp; cases hc; cases hl
  rfl

/-- Witness for C1: the determinism theorem applied at the default
profile, with the charset written two definitionally different ways. -/
theorem generate_password_deterministic_witness :
    password_raw ⟨"", "", none, "", defaultCharset, 32⟩ [] =
      password_raw ⟨"", "", none, "", asciiGraphemes CHARSET_ALPHANUMERIC, 32⟩ [] :=
  generate_password_deterministic _ _ [] rfl rfl rfl rfl rfl rfl

/-- C6.  The mapper of `password_raw` accepts a stream byte `b` exactly
when `b < 256 - (256 mod charset_len)`, discards it otherwise, and maps
each accepted byte to the cluster at index `b mod charset_len`: one step
of the filter-map pipeline peels off exactly that. -/
theorem charset_mapper_rejection (cs : List String) (b : Nat) (bs : List Nat)
    (hcs : 0 < cs.length) (hb : b < 256) :
    mapStream cs (b :: bs) =
      (if b < 256 - 256 % cs.length then [cs.getD (b % cs.length) ""] else []) ++
        mapStream cs bs := by
  unfold mapStream
  by_cases h : b < 256 - 256 % cs.length
  · simp [List.filter_cons, h]
  · simp [List.filter_cons, h]

/-- Witness for C6: the mapper step at byte 5 over the default charset. -/
theorem charset_mapper_rejection_witness :
    mapStream defaultCharset [5] =
      (if 5 < 256 - 256 % defaultCharset.length then
        [defaultCharset.getD (5 % defaultCharset.length) ""] else []) ++
        mapStream defaultCharset [] :=
  charset_mapper_rejection defaultCharset 5 [] (by decide) (by decide)

/-- C4 counterexample.  On the empty charset (zero grapheme clusters,
`length` 1, empty prefix) `password_raw` hits `256 % 0` inside the filter
closure, a division-by-zero panic in Rust, modelled as `none`: no
password is produced, but no typed `InvalidCharset` error is returned
either — the library's result type `Password` has no error variant at
all, so the claim's stated behaviour does not hold. -/
theorem empty_charset_panics :
    password_raw ⟨"", "", none, "", [], 1⟩ [] = none := by
  decide

/-- C4 amended.  With an empty charset, `password_raw` panics via
division by zero (`none`) whenever at least one cluster remains to be
drawn; when the prefix already fills the requested length it returns the
bare prefix.  In neither case is a typed error produced. -/
theorem empty_charset_behavior (pwm : PWM) (key : List Nat) (hcs : pwm.charset = [])
    (hp : utf8Len pwm.prefixStr ≤ pwm.length) :
    password_raw pwm key =
      if utf8Len pwm.prefixStr < pwm.length then none else some pwm.prefixStr := by
  have h1 : ¬ (pwm.length < utf8Len pwm.prefixStr) := by omega
  by_cases h : utf8Len pwm.prefixStr < pwm.length
  · have h2 : 0 < pwm.length - utf8Len pwm.prefixStr ∧ pwm.charset.length = 0 :=
      ⟨by omega, by simp [hcs]⟩
    simp [password_raw, h1, h2, h]
  · have hz : pwm.length - utf8Len pwm.prefixStr = 0 := by omega
    have h2 : ¬ (0 < pwm.length - utf8Len pwm.prefixStr ∧ pwm.charset.length = 0) := by
      rintro ⟨hh, -⟩; omega
    simp [password_raw, h1, h2, h, hz, String.join]

/-- Witness for the amended C4: empty charset, length 1, empty prefix. -/
theorem empty_charset_behavior_witness :
    password_raw ⟨"", "", none, "", [], 1⟩ [] =
      if utf8Len "" < 1 then none else some "" :=
  empty_charset_behavior ⟨"", "", none, "", [], 1⟩ [] rfl (by decide)

/-- C5 counterexample.  With prefix `"aa"` (two bytes) and `length` 1,
the subtraction `self.length - self.prefix.len()` underflows: a panic in
debug builds (modelled `none`; release builds would wrap the `usize` and
keep going).  No typed `PrefixTooLong` error is returned — the library
has no error type — so the claim's stated behaviour does not hold. -/
theorem long_prefix_panics :
    password_raw ⟨"", "", none, "aa", defaultCharset, 1⟩ [] = none := by
  decide

/-- C5 amended.  Whenever the prefix is longer in UTF-8 bytes than
`length`, `password_raw` underflows and panics (debug builds, modelled
`none`); it never returns a typed error. -/
theorem long_prefix_underflow (pwm : PWM) (key : List Nat)
    (h : pwm.length < utf8Len pwm.prefixStr) :
    password_raw pwm key = none := by
  simp [password_raw, h]

/-- Witness for the amended C5: prefix `"aa"`, length 1. -/
theorem long_prefix_underflow_witness :
    password_raw ⟨"", "", none, "aa", defaultCharset, 1⟩ [] = none :=
  long_prefix_underflow ⟨"", "", none, "aa", defaultCharset, 1⟩ [] (by decide)

/-- C2 (failing).  With prefix `"é"` — one grapheme cluster, two UTF-8
bytes — the default 62-cluster charset and `length` 10, the hypotheses of
the length-invariant claim hold (non-empty charset, 1-cluster prefix well
below 10), yet the generated password `"é8aRyuJhR"` has 9 clusters, not
10: the code budgets the prefix by its byte length
(`self.prefix.len()` is 2), not its cluster count.  Every character of
the output (including the precomposed `é`, U+00E9) is a single cluster,
so `String.length` counts clusters here.  A second failure mode of the
same claim, truncation at large `length`, is `single_batch_truncation`. -/
theorem length_invariant_fails :
    Option.map String.length (password_raw ⟨"", "", none, "é", defaultCharset, 10⟩ []) =
      some 9 := by
  decide

/-- C3 (failing).  At `length` 100 with the default charset and key
`[]`, the one and only 64-byte block yields 62 accepted bytes, and
generation stops there: the password has 62 clusters instead of the
requested 100.  The code never requests a further batch — line 71 of
`src/lib.rs` draws exactly `generate::<U64>` once — which is the
early-stop behaviour the specification flags as a latent bug. -/
theorem single_batch_truncation :
    password_raw ⟨"", "", none, "", defaultCharset, 100⟩ [] =
      some "8aRyuJhRGXAQFSlyngeSHpoVwjvKEBD9gvBheTtNb2qjo1436cTtcs3IicnKXq" ∧
    acceptedCount ⟨"", "", none, "", defaultCharset, 100⟩ [] = 62 :=
  ⟨by decide, by decide⟩

/-- C7.  The repository's reference vectors, reproduced bit-exactly: the
key is the passphrase's bytes (the test suite feeds the passphrase
directly to `password_raw`), here the empty passphrase; the all-default
profile of length 32 gives `"8aRyuJhRGXAQFSlyngeSHpoVwjvKEBD9"`, and the
`example.com` profile with prefix `"foobar!"` gives
`"foobar!2b8CMXZJYVDGqEq8cjJLeI7Vd"`. -/
theorem password_reference_vectors :
    password_raw ⟨"", "", none, "", defaultCharset, 32⟩ [] =
      some "8aRyuJhRGXAQFSlyngeSHpoVwjvKEBD9" ∧
    password_raw ⟨"example.com", "example@example.com", none, "foobar!", defaultCharset, 32⟩ [] =
      some "foobar!2b8CMXZJYVDGqEq8cjJLeI7Vd" :=
  ⟨by decide, by decide⟩

/-- C9.  Reseed order is part of the derivation: mixing
`("example.com", "example@example.com")` as `(url, username)` and mixing
the same two strings swapped produce different 64-byte blocks, and hence
different passwords. -/
theorem mix_order_sensitivity :
    drbgBytes ⟨"example.com", "example@example.com", none, "", defaultCharset, 32⟩ [] ≠
      drbgBytes ⟨"example@example.com", "example.com", none, "", defaultCharset, 32⟩ [] ∧
    password_raw ⟨"example.com", "example@example.com", none, "", defaultCharset, 32⟩ [] ≠
      password_raw ⟨"example@example.com", "example.com", none, "", defaultCharset, 32⟩ [] :=
  ⟨by decide, by decide⟩

/-- C10.  For a non-empty charset and a prefix of at most `length` UTF-8
bytes, the password is the prefix followed by `suffixClusters`, whose
cluster count is exactly `min A (length - prefix.len())` where `A` is the
number of bytes accepted among the single 64-byte block; every suffix
cluster belongs to the charset, and the suffix never exceeds 64 clusters
however large `length` is.  The prefix's budget is its byte length, not
its cluster count. -/
theorem password_suffix_characterization (pwm : PWM) (key : List Nat)
    (hcs : 0 < pwm.charset.length) (hp : utf8Len pwm.prefixStr ≤ pwm.length) :
    password_raw pwm key = some (pwm.prefixStr ++ String.join (suffixClusters pwm key)) ∧
    (suffixClusters pwm key).length =
      min (acceptedCount pwm key) (pwm.length - utf8Len pwm.prefixStr) ∧
    (∀ c ∈ suffixClusters pwm key, c ∈ pwm.charset) ∧
    (suffixClusters pwm key).length ≤ 64 := by
  refine ⟨?_, ?_, ?_, ?_⟩
  · have h1 : ¬ (pwm.length < utf8Len pwm.prefixStr) := by omega
    have h2 : ¬ (0 < pwm.length - utf8Len pwm.prefixStr ∧ pwm.charset.length = 0) := by
      rintro ⟨-, h0⟩; omega
    simp [password_raw, h1, h2, suffixClusters]
    exact fun _ => List.length_pos.mp hcs
  · unfold suffixClusters acceptedCount mapStream
    simp [List.length_take, Nat.min_comm]
  · intro c hc
    have hc' := List.mem_of_mem_take hc
    unfold mapStream at hc'
    obtain ⟨r, hr, rfl⟩ := List.mem_map.1 hc'
    have hlt : r % pwm.charset.length < pwm.charset.length := Nat.mod_lt _ hcs
    rw [List.getD_eq_getElem _ _ hlt]
    exact List.getElem_mem _
  · have h1 : (suffixClusters pwm key).length ≤
        (mapStream pwm.charset (drbgBytes pwm key)).length := by
      unfold suffixClusters
      simp [List.length_take]
    have h2 : (mapStream pwm.charset (drbgBytes pwm key)).length ≤
        (drbgBytes pwm key).length := by
      unfold mapStream
      simpa using List.length_filter_le _ _
    have h3 := drbgBytes_length pwm key
    omega

/-- Witness for C10: the characterization at the default charset with
`length` 0 and empty prefix. -/
theorem password_suffix_characterization_witness :
    (password_raw ⟨"", "", none, "", defaultCharset, 0⟩ [] =
      some ("" ++ String.join (suffixClusters ⟨"", "", none, "", defaultCharset, 0⟩ [])) ∧
    (suffixClusters ⟨"", "", none, "", defaultCharset, 0⟩ []).length =
      min (acceptedCount ⟨"", "", none, "", defaultCharset, 0⟩ []) (0 - utf8Len "") ∧
    (∀ c ∈ suffixClusters ⟨"", "", none, "", defaultCharset, 0⟩ [],
      c ∈ (⟨"", "", none, "", defaultCharset, 0⟩ : PWM).charset) ∧
    (suffixClusters ⟨"", "", none, "", defaultCharset, 0⟩ []).length ≤ 64) :=
  password_suffix_characterization ⟨"", "", none, "", defaultCharset, 0⟩ [] (by decide) (by decide)

/-! ### Key-derivation development (towards C8)

The two trailing-zero coincidences of `Key::new` follow structurally
from HMAC-SHA-256 key padding: scrypt sees the passphrase only as the
HMAC key of its two PBKDF2 calls, and keys shorter than the 64-byte
block are zero-padded, so a passphrase and the same passphrase with one
`0x00` appended (when still below the block size) pad identically.  The
remaining part of the claim — that `Key::new [1, 0, 1]` differs from
both — would require evaluating scrypt at cost `N = 65536` (about `2^21`
Salsa20/8 invocations), which is far beyond kernel reduction. -/

/-- PBKDF2 depends on the password only through the padded HMAC key. -/
theorem pbkdf2_key_congr (p1 p2 : List Nat) (h : hmacPad256 p1 = hmacPad256 p2)
    (salt : List Nat) (dkLen : Nat) :
    pbkdf2Sha256One p1 salt dkLen = pbkdf2Sha256One p2 salt dkLen := by
  unfold pbkdf2Sha256One hmacSha256
  simp only [h]

/-- scrypt depends on the password only through the padded HMAC key. -/
theorem scrypt_key_congr (p1 p2 : List Nat) (h : hmacPad256 p1 = hmacPad256 p2)
    (salt : List Nat) (n dkLen : Nat) :
    scrypt p1 salt n dkLen = scrypt p2 salt n dkLen := by
  unfold scrypt
  rw [pbkdf2_key_congr p1 p2 h salt 1024, pbkdf2_key_congr p1 p2 h _ dkLen]

/-- `Key::new` maps the empty passphrase and the single zero byte to the
same key: both pad to the all-zero HMAC block. -/
theorem derive_key_trailing_zero_empty : Key.new [] = Key.new [0] := by
  unfold Key.new
  exact scrypt_key_congr _ _ (by decide) _ _ _

/-- `Key::new` maps `0x01` and `0x01 0x00` to the same key: both pad to
the same HMAC block. -/
theorem derive_key_trailing_zero_one : Key.new [1] = Key.new [1, 0] := by
  unfold Key.new
  exact scrypt_key_congr _ _ (by decide) _ _ _

end Pwclip
